import Mathlib

set_option maxHeartbeats 1000000
set_option maxRecDepth 4000

/-!
Verification of the puppet configuration module (`cloudinit/config/cc_puppet.py`).

The module is embedded shallowly: the side-effecting Python `handle` function
becomes a pure function from a configuration document and an environment
(hostname, instance id, initial file contents, results of querying the puppet
binary) to an `Except`-wrapped trace of external effects (log calls, package
installations, file writes, renames, process executions).  The in-memory
section/key/value configuration store used by `handle`
(`helpers.DefaultingConfigParser`, which lives outside this repository's
source tree) is modelled from the specification of the SectionConfigStore
component.
-/

/-! ## String helpers (Python `str.lstrip`, `rstrip`, `strip`, `splitlines`,
`str.replace`, `str.lower`, `str.split`) -/

/-- Python `str.lstrip()`: drop leading whitespace. -/
def lstrip (s : String) : String := ⟨s.data.dropWhile Char.isWhitespace⟩

/-- Python `str.rstrip()`: drop trailing whitespace. -/
def rstrip (s : String) : String := ⟨(s.data.reverse.dropWhile Char.isWhitespace).reverse⟩

/-- Python `str.strip()`. -/
def strip (s : String) : String := lstrip (rstrip s)

/-- Split a character list at every newline character. -/
def splitOnNL : List Char → List (List Char)
  | [] => [[]]
  | c :: rest =>
    let r := splitOnNL rest
    if c = '\n' then [] :: r
    else
      match r with
      | [] => [[c]]
      | h :: t => (c :: h) :: t

/-- Python `str.splitlines()` for strings whose only line separator is `\n`:
the empty string gives no lines, and a trailing newline does not produce a
trailing empty line. -/
def splitlines (s : String) : List String :=
  if s = "" then []
  else
    let parts := (splitOnNL s.data).map fun l => (⟨l⟩ : String)
    match parts.getLast? with
    | some "" => parts.dropLast
    | _ => parts

/-- Join lines with a newline separator (Python `"\n".join`). -/
def joinNL : List String → String
  | [] => ""
  | [x] => x
  | x :: y :: xs => x ++ "\n" ++ joinNL (y :: xs)

/-- Replace every (leftmost, non-overlapping) occurrence of `needle` by
`repl`, on character lists.  The fuel argument (instantiated with the input
length, which bounds the number of steps) keeps the recursion structural;
with an empty needle the input is returned unchanged (the source only
substitutes the nonempty needles `%f` and `%i`). -/
def replaceFuel (needle repl : List Char) : Nat → List Char → List Char
  | 0, l => l
  | _ + 1, [] => []
  | fuel + 1, c :: rest =>
    if needle ≠ [] ∧ needle.isPrefixOf (c :: rest) then
      repl ++ replaceFuel needle repl fuel ((c :: rest).drop needle.length)
    else
      c :: replaceFuel needle repl fuel rest

/-- Python `str.replace` restricted to nonempty needles. -/
def pyreplace (s needle repl : String) : String :=
  ⟨replaceFuel needle.data repl.data s.data.length s.data⟩

/-- Python `str.lower()` (ASCII case folding, as used for certificate names). -/
def pylower (s : String) : String := ⟨s.data.map Char.toLower⟩

/-- Split a character list on whitespace boundaries (keeping empty chunks). -/
def splitWSChunks : List Char → List (List Char)
  | [] => [[]]
  | c :: rest =>
    let r := splitWSChunks rest
    if c.isWhitespace then [] :: r
    else
      match r with
      | [] => [[c]]
      | h :: t => (c :: h) :: t

/-- Python `str.split()` with no argument: split on whitespace runs,
discarding empty pieces. -/
def pysplit (s : String) : List String :=
  ((splitWSChunks s.data).map fun l => (⟨l⟩ : String)).filter fun p => p ≠ ""

/-! ## The section/key/value configuration store

Modelled from the spec: the store used by `handle` is
`helpers.DefaultingConfigParser` from `cloudinit/helpers.py`, which is not
under `src/`; the SectionConfigStore contract in the specification is the
authority here.  `load` parses each line (after stripping leading
whitespace) as a `[section]` header or a `key = value` pair, preserving
unparseable or blank lines verbatim as passthrough entries of the current
section; `set` overwrites a key in place or appends it (appending a new
section at the end when absent); `serialize` reproduces every loaded line
from its recorded raw text and renders appended entries as `key = value`.
The store works on lists of lines; `stringify` joins them with newlines. -/

/-- One line of a section body: a parsed `key = value` entry (with the raw
source line kept when it came from `load`) or an opaque passthrough line. -/
inductive ConfLine where
  | kv (raw : Option String) (key value : String)
  | passthrough (raw : String)

/-- A section: its name, the raw header line when loaded (`none` for a
section created by `set`), and its body lines in order. -/
structure Csection where
  name : String
  header : Option String
  entries : List ConfLine

/-- The full store: passthrough lines seen before the first header, then the
sections in order. -/
structure SectionedConfig where
  preamble : List ConfLine
  sections : List Csection

/-- The key of a parsed entry, `none` for passthrough lines. -/
def ConfLine.keyOf : ConfLine → Option String
  | .kv _ k _ => some k
  | .passthrough _ => none

/-- Parse a line as a `[name]` section header (after stripping leading
whitespace). -/
def parseHeaderName (l : String) : Option String :=
  match (lstrip l).data with
  | [] => none
  | c :: rest =>
    if c = '[' ∧ rest.getLast? = some ']' then some ⟨rest.dropLast⟩ else none

/-- `true` when the line is not a section header. -/
def notHeader (l : String) : Bool := (parseHeaderName l).isNone

/-- Split a character list at the first `=`, or `none` if there is none. -/
def splitFirstEq : List Char → Option (List Char × List Char)
  | [] => none
  | c :: rest =>
    if c = '=' then some ([], rest)
    else
      match splitFirstEq rest with
      | some (a, b) => some (c :: a, b)
      | none => none

/-- Parse a line as a `key = value` pair: split at the first `=`, trim both
sides, and require a nonempty key. -/
def parseKV (l : String) : Option (String × String) :=
  match splitFirstEq (lstrip l).data with
  | some (a, b) =>
    let k := strip (⟨a⟩ : String)
    if k = "" then none else some (k, strip ⟨b⟩)
  | none => none

/-- Turn a non-header line into a section body line, keeping the raw text. -/
def entryOfLine (l : String) : ConfLine :=
  match parseKV l with
  | some (k, v) => .kv (some l) k v
  | none => .passthrough l

/-- Render a body line: loaded lines reproduce their raw text, entries
appended by `set` render as `key = value`. -/
def entryLine : ConfLine → String
  | .kv (some raw) _ _ => raw
  | .kv none k v => k ++ " = " ++ v
  | .passthrough raw => raw

/-- Group lines into sections, right to left: a header line starts a section
that absorbs the body lines collected so far; the first component carries
the body lines not yet claimed by a header. -/
def loadAux : List String → List ConfLine × List Csection
  | [] => ([], [])
  | l :: ls =>
    let rest := loadAux ls
    match parseHeaderName l with
    | some nm => ([], { name := nm, header := some l, entries := rest.1 } :: rest.2)
    | none => (entryOfLine l :: rest.1, rest.2)

/-- `load` on a list of lines: the lines before the first header become the
preamble, the rest are grouped into sections. -/
def loadLines (ls : List String) : SectionedConfig :=
  { preamble := (loadAux ls).1, sections := (loadAux ls).2 }

/-- Render the sections back to lines. -/
def serializeSections : List Csection → List String
  | [] => []
  | sec :: rest =>
    sec.header.getD ("[" ++ sec.name ++ "]") :: sec.entries.map entryLine ++
      serializeSections rest

/-- `serialize` to a list of lines. -/
def serializeLines (c : SectionedConfig) : List String :=
  c.preamble.map entryLine ++ serializeSections c.sections

/-- `serialize` to text (what is written back to the config file). -/
def stringify (c : SectionedConfig) : String := joinNL (serializeLines c)

/-- `set` on a section body: overwrite the first entry with the given key in
place, or append a fresh `key = value` entry at the end. -/
def setEntries (k v : String) : List ConfLine → List ConfLine
  | [] => [.kv none k v]
  | e :: rest =>
    if e.keyOf = some k then .kv none k v :: rest else e :: setEntries k v rest

/-- `set` on the section list: update the first section with the given name
in place, or append a new section at the end. -/
def setInSections (s k v : String) : List Csection → List Csection
  | [] => [{ name := s, header := none, entries := [.kv none k v] }]
  | sec :: rest =>
    if sec.name = s then { sec with entries := setEntries k v sec.entries } :: rest
    else sec :: setInSections s k v rest

/-- `SectionConfigStore.set`. -/
def SectionedConfig.set (c : SectionedConfig) (s k v : String) : SectionedConfig :=
  { c with sections := setInSections s k v c.sections }

/-- First section with the given name. -/
def findSection (s : String) : List Csection → Option Csection
  | [] => none
  | sec :: rest => if sec.name = s then some sec else findSection s rest

/-- Value of the first entry with the given key in a section body. -/
def getFromEntries (k : String) : List ConfLine → Option String
  | [] => none
  | .kv _ k2 v :: rest => if k2 = k then some v else getFromEntries k rest
  | .passthrough _ :: rest => getFromEntries k rest

/-- Read a value from a section list. -/
def getSec (s k : String) (secs : List Csection) : Option String :=
  match findSection s secs with
  | some sec => getFromEntries k sec.entries
  | none => none

/-- Read a value back from the store. -/
def SectionedConfig.get (c : SectionedConfig) (s k : String) : Option String :=
  getSec s k c.sections

/-- Whether the store has a section with the given name. -/
def SectionedConfig.hasSection (c : SectionedConfig) (s : String) : Bool :=
  (findSection s c.sections).isSome

/-! ## The configuration document and the environment -/

/-- A YAML-like configuration value, as handed to `handle` in `cfg`. -/
inductive Yaml where
  | str (s : String)
  | bool (b : Bool)
  | int (n : Int)
  | list (xs : List Yaml)
  | map (kvs : List (String × Yaml))

/-- First-match association lookup (Python `dict` access; insertion order is
the list order). -/
def lookupY : List (String × Yaml) → String → Option Yaml
  | [], _ => none
  | (k2, v) :: rest, k => if k2 = k then some v else lookupY rest k

/-- The sub-mapping of a value (the source indexes `puppet_cfg['conf']` and
section values directly as dicts; non-mapping values have no items). -/
def Yaml.getMap : Yaml → List (String × Yaml)
  | .map kvs => kvs
  | _ => []

/-- Python `str(...)` of a scalar, as applied by the configuration helpers;
the documented configuration uses strings, so the other cases are schematic. -/
def yamlToStr : Yaml → String
  | .str s => s
  | .bool b => if b then "True" else "False"
  | .int n => toString n
  | .list _ => "<list>"
  | .map _ => "<map>"

/-- Modelled from the spec: `util.get_cfg_option_str` (`cloudinit/util.py`,
not under `src/`): the explicit document value (stringified) if the key is
present, otherwise no value (the caller supplies the default). -/
def get_cfg_option_str (m : List (String × Yaml)) (key : String) : Option String :=
  match lookupY m key with
  | some v => some (yamlToStr v)
  | none => none

/-- `get_cfg_option_str` with a non-`None` default. -/
def cfgStrOr (m : List (String × Yaml)) (key dflt : String) : String :=
  match lookupY m key with
  | some v => yamlToStr v
  | none => dflt

/-- Modelled from the spec: `util.get_cfg_option_bool` (`cloudinit/util.py`,
not under `src/`): a present boolean is used as given, an absent key yields
the default; the specification types these fields as booleans, so other
value shapes also fall back to the default here. -/
def get_cfg_option_bool (m : List (String × Yaml)) (key : String) (dflt : Bool) : Bool :=
  match lookupY m key with
  | some (.bool b) => b
  | some _ => dflt
  | none => dflt

/-- Python truthiness of an optional version string (`None` and the empty
string are falsy). -/
def versionTruthy : Option String → Bool
  | none => false
  | some s => !(s == "")

/-- The version shown in the install log line (`version if version else
latest`). -/
def orLatest : Option String → String
  | none => "latest"
  | some s => if s = "" then "latest" else s

/-- `os.path.join` for the relative components used by `PuppetConstants`. -/
def pathJoin (a b : String) : String :=
  if b.startsWith "/" then b
  else if a = "" ∨ a.endsWith "/" then a ++ b
  else a ++ "/" ++ b

/-- The environment `handle` runs against: machine identity, the results of
`puppet config print <setting>` (`none` models a failing binary query), the
initial filesystem contents, and which service-activation tools exist. -/
structure Env where
  fqdn : String
  instance_id : String
  query : String → Option String
  fs : List (String × String)
  exists_default_puppet : Bool
  exists_systemctl : Bool
  exists_chkconfig : Bool

/-- One observable external action of a run.  `install_aio` stands for the
whole `install_puppet_aio` call (script fetch, temporary write and
execution); `query_binary` is a `puppet config print` invocation. -/
inductive Effect where
  | debug (msg : String)
  | warn (msg : String)
  | install_packages (pkg : String) (version : Option String)
  | install_aio (url : String) (version collection : Option String) (cleanup : Bool)
  | query_binary (bin setting : String)
  | ensure_dir (path : String) (mode : Option Nat)
  | chownbyname (path user group : String)
  | write_file (path contents : String)
  | rename (src dst : String)
  | subp (argv : List String)
  deriving DecidableEq, Repr

/-! ## Constants and log messages -/

def AIO_INSTALL_URL : String :=
  "https://raw.githubusercontent.com/puppetlabs/install-puppet/main/install.sh"

def PUPPET_AGENT_DEFAULT_ARGS : List String := ["--test"]

def skipMsg (name : String) : String :=
  "Skipping module named " ++ name ++ ", no puppet configuration found"

def installSkipMsg : String :=
  "Puppet install set to false but version supplied, doing nothing."

def attemptMsg (version : Option String) (install_type : String) : String :=
  "Attempting to install puppet " ++ orLatest version ++ " from " ++ install_type

def unknownInstallTypeMsg (install_type : String) : String :=
  "Unknown puppet install type " ++ install_type

def queryFailMsg (setting : String) : String :=
  "puppet config print " ++ setting ++ " failed"

def runAgentMsg : String := "Running puppet-agent"

def execArgsTypeMsg : String :=
  "Unknown type provided for puppet exec_args, expected list, tuple, or string"

def autostartWarnMsg : String :=
  "Sorry we do not know how to enable puppet services on this system"

/-! ## The embedded module (`cc_puppet.py`) -/

/-- `PuppetConstants.__init__` (lines 120-128). -/
structure PuppetConstants where
  conf_path : String
  ssl_dir : String
  ssl_cert_dir : String
  ssl_cert_path : String
  csr_attributes_path : String
  deriving DecidableEq, Repr

def mkPuppetConstants (puppet_conf_file puppet_ssl_dir csr_attributes_path : String) :
    PuppetConstants :=
  { conf_path := puppet_conf_file,
    ssl_dir := puppet_ssl_dir,
    ssl_cert_dir := pathJoin puppet_ssl_dir "certs",
    ssl_cert_path := pathJoin (pathJoin puppet_ssl_dir "certs") "ca.pem",
    csr_attributes_path := csr_attributes_path }

/-- `_autostart_puppet` (lines 131-144): three mutually exclusive strategies
selected by what exists on the system, else a warning. -/
def autostart_puppet (env : Env) : List Effect :=
  if env.exists_default_puppet then
    [.subp ["sed", "-i", "-e", "s/^START=.*/START=yes/", "/etc/default/puppet"]]
  else if env.exists_systemctl then
    [.subp ["/bin/systemctl", "enable", "puppet.service"]]
  else if env.exists_chkconfig then
    [.subp ["/sbin/chkconfig", "puppet", "on"]]
  else
    [.warn autostartWarnMsg]

/-- `get_config_value` (lines 147-153): run `puppet config print <setting>`
and trim the trailing newline; a failing subprocess is `none`. -/
def get_config_value (env : Env) (setting : String) : Option String :=
  (env.query setting).map rstrip

/-- The install stage (lines 215-228).  Returns the emitted effects and the
possibly forced-off `run` flag (`run = False` on an unrecognized
`install_type`). -/
def installStep (install : Bool) (version collection : Option String)
    (install_type : String) (cleanup run : Bool)
    (aio_install_url package_name : String) : List Effect × Bool :=
  if !install && versionTruthy version then
    ([.warn installSkipMsg], run)
  else if install then
    if install_type = "packages" then
      ([.debug (attemptMsg version install_type), .install_packages package_name version], run)
    else if install_type = "aio" then
      ([.debug (attemptMsg version install_type),
        .install_aio aio_install_url version collection cleanup], run)
    else
      ([.debug (attemptMsg version install_type), .warn (unknownInstallTypeMsg install_type)],
       false)
  else
    ([], run)

/-- Path resolution (lines 230-238).  Python evaluates the default argument
`get_config_value(puppet_bin, setting)` before each `get_cfg_option_str`
call, so all three binary queries run unconditionally and a failing query
aborts `handle` even when the document value is present. -/
def resolve_paths (env : Env) (pcfg : List (String × Yaml)) (bin : String) :
    Except String (List Effect × PuppetConstants) :=
  match get_config_value env "config" with
  | none => .error (queryFailMsg "config")
  | some d1 =>
    match get_config_value env "ssldir" with
    | none => .error (queryFailMsg "ssldir")
    | some d2 =>
      match get_config_value env "csr_attributes" with
      | none => .error (queryFailMsg "csr_attributes")
      | some d3 =>
        .ok ([.query_binary bin "config", .query_binary bin "ssldir",
              .query_binary bin "csr_attributes"],
             mkPuppetConstants (cfgStrOr pcfg "conf_file" d1)
               (cfgStrOr pcfg "ssl_dir" d2)
               (cfgStrOr pcfg "csr_attributes_path" d3))

/-- The per-entry value transformation and store update (lines 272-281):
`certname` values get `%f` replaced by the fqdn, then `%i` by the instance
id, then the whole string lower-cased; every entry is stored with
`ConfigParser.set`. -/
def processEntries (env : Env) (store : SectionedConfig) (secName : String) :
    List (String × Yaml) → SectionedConfig
  | [] => store
  | (o, v) :: rest =>
    let vs := yamlToStr v
    let vs := if o = "certname"
      then pylower (pyreplace (pyreplace vs "%f" env.fqdn) "%i" env.instance_id)
      else vs
    processEntries env (store.set secName o vs) secName rest

/-- The certificate-artifact block (lines 258-268), in source order:
create `ssl_dir` with mode `0o771`, chown it, create `ssl_cert_dir`, chown
it, write the payload to `ssl_cert_path`, chown the file. -/
def certEffects (p : PuppetConstants) (puppet_user pem : String) : List Effect :=
  [.ensure_dir p.ssl_dir (some 0o771),
   .chownbyname p.ssl_dir puppet_user "root",
   .ensure_dir p.ssl_cert_dir none,
   .chownbyname p.ssl_cert_dir puppet_user "root",
   .write_file p.ssl_cert_path pem,
   .chownbyname p.ssl_cert_path puppet_user "root"]

/-- Store update of one top-level `conf` item (lines 255-281): an item whose
name is `ca_cert` is diverted away from the store; any other item is a
section whose entries are merged. -/
def sectionStore (env : Env) (store : SectionedConfig) (cfg_name : String) (sval : Yaml) :
    SectionedConfig :=
  if cfg_name = "ca_cert" then store
  else processEntries env store cfg_name sval.getMap

/-- Effects of one top-level `conf` item: the certificate block for
`ca_cert`, nothing for ordinary sections (their effect is on the store). -/
def sectionEffects (p : PuppetConstants) (puppet_user : String)
    (cfg_name : String) (sval : Yaml) : List Effect :=
  if cfg_name = "ca_cert" then certEffects p puppet_user (yamlToStr sval)
  else []

/-- The `conf` merge loop (lines 255-286).  Note the source's indentation:
the rename of the config file to `.old` and the rewrite of the serialized
store sit INSIDE the per-item loop, so they run once per top-level `conf`
item. -/
def confLoop (env : Env) (p : PuppetConstants) (puppet_user : String) :
    List (String × Yaml) → SectionedConfig → List Effect
  | [], _ => []
  | (n, sv) :: rest, store =>
    sectionEffects p puppet_user n sv ++
    [.rename p.conf_path (p.conf_path ++ ".old"),
     .write_file p.conf_path (stringify (sectionStore env store n sv))] ++
    confLoop env p puppet_user rest (sectionStore env store n sv)

/-- The store after merging a list of top-level `conf` items. -/
def storeAfter (env : Env) : List (String × Yaml) → SectionedConfig → SectionedConfig
  | [], st => st
  | (n, sv) :: rest, st => storeAfter env rest (sectionStore env st n sv)

/-- Read a file from the modelled filesystem. -/
def lookupFS : List (String × String) → String → Option String
  | [], _ => none
  | (p2, c) :: rest, p => if p2 = p then some c else lookupFS rest p

/-- The configuration-merge stage (lines 241-286): if `conf` is present,
read the existing config file (`util.load_file` fails when it is absent),
strip leading whitespace from each line, parse the result into the store and
run the merge loop. -/
def confStep (env : Env) (pcfg : List (String × Yaml)) (p : PuppetConstants)
    (puppet_user : String) : Except String (List Effect) :=
  match lookupY pcfg "conf" with
  | none => .ok []
  | some conf =>
    match lookupFS env.fs p.conf_path with
    | none => .error ("load_file " ++ p.conf_path ++ " failed")
    | some contents =>
      let cleaned_contents := joinNL ((splitlines contents).map lstrip)
      let store := loadLines (splitlines cleaned_contents)
      .ok (confLoop env p puppet_user conf.getMap store)

/-- Schematic stand-in for the external `yaml.dump(..., default_flow_style=False)`
serializer applied to `csr_attributes`; its exact text is an external
collaborator's output and is not load-bearing for any claim. -/
def yamlDump : Yaml → String
  | .str s => s ++ "\n"
  | .bool b => (if b then "true" else "false") ++ "\n"
  | .int n => toString n ++ "\n"
  | .list xs => joinNL (xs.map fun x => "- " ++ yamlToStr x) ++ "\n"
  | .map kvs => joinNL (kvs.map fun kv => kv.1 ++ ": " ++ yamlToStr kv.2) ++ "\n"

/-- The `csr_attributes` stage (lines 288-291). -/
def csrStep (pcfg : List (String × Yaml)) (p : PuppetConstants) : List Effect :=
  match lookupY pcfg "csr_attributes" with
  | none => []
  | some v => [.write_file p.csr_attributes_path (yamlDump v)]

/-- The one-shot agent run (lines 297-313), executed only when `run` is
true: `[puppet_bin, agent]` extended with the supplied list, the
whitespace-split of a supplied string, or the built-in default (with a
warning for an unrecognized type). -/
def agentRunStep (pcfg : List (String × Yaml)) (run : Bool) (puppet_bin : String) :
    List Effect :=
  if run then
    .debug runAgentMsg ::
    (match lookupY pcfg "exec_args" with
     | some (.list xs) => [.subp (puppet_bin :: "agent" :: xs.map yamlToStr)]
     | some (.str s) => [.subp (puppet_bin :: "agent" :: pysplit s)]
     | some _ => [.warn execArgsTypeMsg,
                  .subp (puppet_bin :: "agent" :: PUPPET_AGENT_DEFAULT_ARGS)]
     | none => [.subp (puppet_bin :: "agent" :: PUPPET_AGENT_DEFAULT_ARGS)])
  else []

/-- Everything after the install stage (lines 230-316): path resolution,
configuration merge, `csr_attributes` write, service autostart, optional
agent run, and the unconditional final service start. -/
def postInstall (env : Env) (pcfg : List (String × Yaml))
    (puppet_bin puppet_user : String) (run : Bool) : Except String (List Effect) :=
  match resolve_paths env pcfg puppet_bin with
  | .error e => .error e
  | .ok (pathEffs, p) =>
    match confStep env pcfg p puppet_user with
    | .error e => .error e
    | .ok confEffs =>
      .ok (pathEffs ++ confEffs ++ csrStep pcfg p ++ autostart_puppet env ++
           agentRunStep pcfg run puppet_bin ++ [.subp ["service", "puppet", "start"]])

/-- `handle` on a present `puppet` document (lines 191-316). -/
def handlePuppet (pcfg : List (String × Yaml)) (env : Env) : Except String (List Effect) :=
  let install := get_cfg_option_bool pcfg "install" true
  let version := get_cfg_option_str pcfg "version"
  let collection := get_cfg_option_str pcfg "collection"
  let install_type := (get_cfg_option_str pcfg "install_type").getD "packages"
  let cleanup := get_cfg_option_bool pcfg "cleanup" true
  let run := get_cfg_option_bool pcfg "exec" false
  let aio_install_url := (get_cfg_option_str pcfg "aio_install_url").getD AIO_INSTALL_URL
  let puppet_user := if install_type = "aio" then "root" else "puppet"
  let puppet_bin := if install_type = "aio" then "/opt/puppetlabs/bin/puppet" else "puppet"
  let puppet_package := if install_type = "aio" then "puppet-agent" else "puppet"
  let package_name := (get_cfg_option_str pcfg "package_name").getD puppet_package
  let st := installStep install version collection install_type cleanup run
    aio_install_url package_name
  (postInstall env pcfg puppet_bin puppet_user st.2).map fun r => st.1 ++ r

/-- `handle` (lines 184-316): a missing `puppet` key is a silent no-op
except for one debug line. -/
def handle (name : String) (cfg : List (String × Yaml)) (env : Env) :
    Except String (List Effect) :=
  match lookupY cfg "puppet" with
  | none => .ok [.debug (skipMsg name)]
  | some pv => handlePuppet pv.getMap env

/-! ## A small filesystem interpreter for the write/rename effects -/

/-- Write (create or overwrite) a file. -/
def fsWrite (fs : List (String × String)) (p v : String) : List (String × String) :=
  (p, v) :: fs.filter fun kv => kv.1 ≠ p

/-- Apply one effect to the filesystem (only writes and renames change it). -/
def applyEffect (fs : List (String × String)) : Effect → List (String × String)
  | .write_file p c => fsWrite fs p c
  | .rename src dst =>
    (match lookupFS fs src with
     | some c => fsWrite (fs.filter fun kv => kv.1 ≠ src) dst c
     | none => fs)
  | _ => fs

/-- The filesystem after a trace of effects. -/
def applyEffects (fs : List (String × String)) (es : List Effect) : List (String × String) :=
  es.foldl applyEffect fs

/-! ## Effect classifiers -/

/-- Package or AIO installation effects (the "installer or fetch calls"). -/
def Effect.isInstallEffect : Effect → Bool
  | .install_packages _ _ => true
  | .install_aio _ _ _ _ => true
  | _ => false

/-- A `puppet agent ...` execution. -/
def Effect.isAgentRun : Effect → Bool
  | .subp (_ :: "agent" :: _) => true
  | _ => false

/-- A rename effect. -/
def Effect.isRename : Effect → Bool
  | .rename _ _ => true
  | _ => false

/-- The effect kinds the `conf` merge loop can emit. -/
def Effect.isConfKind : Effect → Bool
  | .ensure_dir _ _ => true
  | .chownbyname _ _ _ => true
  | .write_file _ _ => true
  | .rename _ _ => true
  | _ => false

/-! ## Concrete run scenarios used by the counterexamples and witnesses -/

/-- A benign environment: binary queries succeed, the config file exists and
is empty, no service-activation tool is present. -/
def envW : Env where
  fqdn := "host.example.org"
  instance_id := "i-0001"
  query := fun _ => some "/default\n"
  fs := [("/etc/puppet/puppet.conf", "")]
  exists_default_puppet := false
  exists_systemctl := false
  exists_chkconfig := false

/-- A document whose `conf` has a section `agent` containing the key
`ca_cert` (the shape the claim and the module docstring describe). -/
def cfgC1 : List (String × Yaml) :=
  [("puppet", .map [("install", .bool false),
    ("conf_file", .str "/etc/puppet/puppet.conf"),
    ("ssl_dir", .str "/var/lib/puppet/ssl"),
    ("csr_attributes_path", .str "/etc/csr.yaml"),
    ("conf", .map [("agent", .map [("ca_cert", .str "PEM")])])])]

/-- The effect trace of the `cfgC1` run. -/
def c1trace : List Effect :=
  match handle "puppet" cfgC1 envW with
  | .ok t => t
  | .error _ => []

/-- Environment for the backup-rename scenario: the config file holds one
pre-existing section. -/
def envC3 : Env where
  fqdn := "host.example.org"
  instance_id := "i-0001"
  query := fun _ => some "/default\n"
  fs := [("/etc/puppet/puppet.conf", "[main]\nx = 1")]
  exists_default_puppet := true
  exists_systemctl := false
  exists_chkconfig := false

/-- A document whose `conf` has two sections. -/
def cfgC3 : List (String × Yaml) :=
  [("puppet", .map [("install", .bool false),
    ("conf_file", .str "/etc/puppet/puppet.conf"),
    ("ssl_dir", .str "/var/lib/puppet/ssl"),
    ("csr_attributes_path", .str "/etc/csr.yaml"),
    ("conf", .map [("agent", .map [("server", .str "srv")]),
                   ("main", .map [("k", .str "w")])])])]

/-- The effect trace of the `cfgC3` run. -/
def c3trace : List Effect :=
  match handle "puppet" cfgC3 envC3 with
  | .ok t => t
  | .error _ => []

/-- Environment in which every binary query fails (no usable puppet
binary). -/
def envC4 : Env where
  fqdn := "host.example.org"
  instance_id := "i-0001"
  query := fun _ => none
  fs := [("/etc/puppet/puppet.conf", "")]
  exists_default_puppet := false
  exists_systemctl := false
  exists_chkconfig := false

/-- A document giving all three paths explicitly. -/
def cfgC4 : List (String × Yaml) :=
  [("puppet", .map [("install", .bool false),
    ("conf_file", .str "/etc/puppet/puppet.conf"),
    ("ssl_dir", .str "/var/lib/puppet/ssl"),
    ("csr_attributes_path", .str "/etc/csr.yaml")])]

/-- A document with `install = true`, `exec = true` and an unrecognized
`install_type`. -/
def cfgC5 : List (String × Yaml) :=
  [("puppet", .map [("install", .bool true), ("exec", .bool true),
    ("install_type", .str "bogus")])]

/-- The effect trace of the `cfgC5` run. -/
def c5trace : List Effect :=
  match handle "puppet" cfgC5 envW with
  | .ok t => t
  | .error _ => []

/-- A document with `install = false` and a version supplied. -/
def cfgC7 : List (String × Yaml) :=
  [("puppet", .map [("install", .bool false), ("version", .str "6.0.0")])]

/-- The effect trace of the `cfgC7` run. -/
def c7trace : List Effect :=
  match handle "puppet" cfgC7 envW with
  | .ok t => t
  | .error _ => []

/-- A puppet document with no `install` key at all. -/
def cfgC10 : List (String × Yaml) :=
  [("puppet", .map [])]

/-- The effect trace of the `cfgC10` run. -/
def c10trace : List Effect :=
  match handle "puppet" cfgC10 envW with
  | .ok t => t
  | .error _ => []

/-! ## Theorems: store round trip -/

/-- Rendering a loaded line reproduces it verbatim. -/
theorem entryLine_entryOfLine (l : String) : entryLine (entryOfLine l) = l := by
  unfold entryOfLine
  cases h : parseKV l <;> simp [entryLine]

/-- The loader keeps every input line (as raw text of an entry or header). -/
theorem loadAux_roundtrip : ∀ ls : List String,
    ((loadAux ls).1.map entryLine) ++ serializeSections (loadAux ls).2 = ls := by
  intro ls
  induction ls with
  | nil => simp [loadAux, serializeSections]
  | cons l ls ih =>
    rw [loadAux]
    cases h : parseHeaderName l with
    | some nm =>
      simp only [serializeSections, List.map_nil, List.nil_append, Option.getD_some,
        List.cons_append]
      rw [ih]
    | none =>
      simp only [List.map_cons, entryLine_entryOfLine, List.cons_append]
      rw [ih]

/-- Round trip: serializing a freshly loaded store reproduces the input
lines exactly (blank and unparseable lines included). -/
theorem serializeLines_loadLines (ls : List String) :
    serializeLines (loadLines ls) = ls :=
  loadAux_roundtrip ls

/-! ## Theorems: `set` adds exactly one line (plus a header when needed) -/

/-- When no entry of a section body has the key, `set` appends a fresh
entry at the end of the body. -/
theorem setEntries_append_of_no_key (k v : String) :
    ∀ es : List ConfLine, (∀ e ∈ es, e.keyOf ≠ some k) →
      setEntries k v es = es ++ [.kv none k v] := by
  intro es h
  induction es with
  | nil => rfl
  | cons e rest ih =>
    rw [setEntries, if_neg (h e (List.mem_cons_self e rest))]
    rw [ih fun e2 he2 => h e2 (List.mem_cons_of_mem e he2)]
    simp

/-- Setting a key that is absent from the (first matching) section inserts
exactly one line into the serialized section list — two lines (header and
entry) when the whole section is absent — and the original lines survive in
order as a sublist. -/
theorem setInSections_sublist_length (s k v : String) :
    ∀ secs : List Csection,
      (∀ sec, findSection s secs = some sec → ∀ e ∈ sec.entries, e.keyOf ≠ some k) →
      (serializeSections secs).Sublist (serializeSections (setInSections s k v secs)) ∧
      (serializeSections (setInSections s k v secs)).length =
        (serializeSections secs).length + (if (findSection s secs).isSome then 1 else 2) := by
  intro secs
  induction secs with
  | nil =>
    intro _
    constructor
    · exact List.nil_sublist _
    · rfl
  | cons sec rest ih =>
    intro hk
    by_cases hname : sec.name = s
    · have hsec : findSection s (sec :: rest) = some sec := by
        rw [findSection, if_pos hname]
      have hke : ∀ e ∈ sec.entries, e.keyOf ≠ some k := hk sec hsec
      rw [setInSections, if_pos hname]
      simp only [serializeSections, setEntries_append_of_no_key k v sec.entries hke,
        List.map_append, List.map_cons, List.map_nil, entryLine]
      constructor
      · simp only [List.cons_append, List.append_assoc, List.singleton_append]
        exact List.Sublist.cons₂ _
          (List.Sublist.append_left (List.Sublist.cons _ (List.Sublist.refl _)) _)
      · rw [hsec]
        simp only [Option.isSome_some, if_pos]
        simp [List.length_append]
        omega
    · rw [setInSections, if_neg hname]
      have hsec : findSection s (sec :: rest) = findSection s rest := by
        rw [findSection, if_neg hname]
      have hk2 : ∀ sec2, findSection s rest = some sec2 → ∀ e ∈ sec2.entries, e.keyOf ≠ some k := by
        intro sec2 h2
        exact hk sec2 (hsec ▸ h2)
      obtain ⟨ih1, ih2⟩ := ih hk2
      constructor
      · simp only [serializeSections, List.cons_append, List.append_assoc]
        exact List.Sublist.cons₂ _ (List.Sublist.append_left ih1 _)
      · simp only [serializeSections, hsec, List.cons_append, List.length_append,
          List.length_cons, ih2]
        omega

/-- C2 (amended): for every section-based text `T` (as a list of lines) and
every `(section, key, value)` whose KEY is not present in the first section
of `T` named `section` (in particular when the section is absent),
serializing after loading `T` and setting the triple yields `T` with exactly
one line added — plus a new section header when the section was absent —
with no reordering, removal or alteration of any pre-existing line
(`T` is a sublist of the result), and unparseable/blank lines are preserved
verbatim through the load/serialize round trip. -/
theorem C2_roundtrip_insert (L : List String) (s k v : String)
    (hk : ∀ sec, findSection s (loadLines L).sections = some sec →
      ∀ e ∈ sec.entries, e.keyOf ≠ some k) :
    serializeLines (loadLines L) = L ∧
    L.Sublist (serializeLines ((loadLines L).set s k v)) ∧
    (serializeLines ((loadLines L).set s k v)).length =
      L.length + (if (loadLines L).hasSection s then 1 else 2) := by
  have hrt := serializeLines_loadLines L
  obtain ⟨h1, h2⟩ := setInSections_sublist_length s k v (loadLines L).sections hk
  have hser : serializeLines ((loadLines L).set s k v) =
      (loadLines L).preamble.map entryLine ++
        serializeSections (setInSections s k v (loadLines L).sections) := rfl
  have hold : (loadLines L).preamble.map entryLine ++
      serializeSections (loadLines L).sections = L := hrt
  refine ⟨hrt, ?_, ?_⟩
  · rw [hser]
    conv_lhs => rw [← hold]
    exact List.Sublist.append_left h1 _
  · rw [hser]
    have hlen := congrArg List.length hold
    rw [List.length_append] at hlen
    simp only [List.length_append, h2, SectionedConfig.hasSection, ← hlen]
    omega

/-- C2 counterexample: for `T = ["[main]", "x = 1"]` the triple
`("main", "x", "2")` is not present in `T` (the stored value of `x` is `1`
and no line reads `x = 2`), yet the merge does NOT yield `T` plus one line:
the existing line is altered in place, refuting the claim as stated. -/
theorem C2_counterexample :
    (loadLines ["[main]", "x = 1"]).get "main" "x" = some "1" ∧
    ("x = 2" ∉ (["[main]", "x = 1"] : List String)) ∧
    ¬ ((["[main]", "x = 1"] : List String).Sublist
         (serializeLines ((loadLines ["[main]", "x = 1"]).set "main" "x" "2")) ∧
       (serializeLines ((loadLines ["[main]", "x = 1"]).set "main" "x" "2")).length =
         (["[main]", "x = 1"] : List String).length + 1) := by
  refine ⟨by decide, by decide, ?_⟩
  intro h
  have hs : serializeLines ((loadLines ["[main]", "x = 1"]).set "main" "x" "2") =
      ["[main]", "x = 2"] := by decide
  have hmem : "x = 1" ∈ serializeLines ((loadLines ["[main]", "x = 1"]).set "main" "x" "2") :=
    h.1.subset (by decide)
  rw [hs] at hmem
  exact absurd hmem (by decide)

/-- Witness for C2: inserting `server = p` into a section `agent` absent
from `["[main]", "x = 1"]` keeps the original lines and adds two lines
(header and entry). -/
theorem C2_witness :
    (∀ sec, findSection "agent" (loadLines ["[main]", "x = 1"]).sections = some sec →
      ∀ e ∈ sec.entries, e.keyOf ≠ some "server") ∧
    (serializeLines (loadLines ["[main]", "x = 1"]) = ["[main]", "x = 1"] ∧
     (["[main]", "x = 1"] : List String).Sublist
       (serializeLines ((loadLines ["[main]", "x = 1"]).set "agent" "server" "p")) ∧
     (serializeLines ((loadLines ["[main]", "x = 1"]).set "agent" "server" "p")).length =
       (["[main]", "x = 1"] : List String).length +
         (if (loadLines ["[main]", "x = 1"]).hasSection "agent" then 1 else 2)) :=
  ⟨fun _ h => (nomatch h),
   C2_roundtrip_insert ["[main]", "x = 1"] "agent" "server" "p" (fun _ h => (nomatch h))⟩

/-! ## Theorems: `set`/`get` on the store -/

/-- After `setEntries k v`, the key `k` reads back `v`. -/
theorem getFromEntries_setEntries_self (k v : String) :
    ∀ es : List ConfLine, getFromEntries k (setEntries k v es) = some v := by
  intro es
  induction es with
  | nil => simp [setEntries, getFromEntries]
  | cons e rest ih =>
    rw [setEntries]
    by_cases h : e.keyOf = some k
    · rw [if_pos h]
      simp [getFromEntries]
    · rw [if_neg h]
      cases e with
      | kv raw k2 v2 =>
        have hk2 : k2 ≠ k := by
          intro heq
          exact h (by simp [ConfLine.keyOf, heq])
        simp [getFromEntries, hk2, ih]
      | passthrough raw => simp [getFromEntries, ih]

/-- `setEntries k v` does not change the value read at a different key. -/
theorem getFromEntries_setEntries_other (k v k2 : String) (hne : k2 ≠ k) :
    ∀ es : List ConfLine, getFromEntries k2 (setEntries k v es) = getFromEntries k2 es := by
  intro es
  induction es with
  | nil => simp [setEntries, getFromEntries, Ne.symm hne]
  | cons e rest ih =>
    rw [setEntries]
    by_cases h : e.keyOf = some k
    · rw [if_pos h]
      cases e with
      | kv raw k3 v3 =>
        have hk3 : k3 = k := by
          simpa [ConfLine.keyOf] using h
        subst hk3
        simp [getFromEntries, Ne.symm hne]
      | passthrough raw => simp [ConfLine.keyOf] at h
    · rw [if_neg h]
      cases e with
      | kv raw k3 v3 =>
        by_cases h3 : k3 = k2
        · simp [getFromEntries, h3]
        · simp [getFromEntries, h3, ih]
      | passthrough raw => simp [getFromEntries, ih]

/-- After `set s k v`, reading `(s, k)` gives `v`. -/
theorem getSec_setInSections_self (s k v : String) :
    ∀ secs : List Csection, getSec s k (setInSections s k v secs) = some v := by
  intro secs
  induction secs with
  | nil => simp [setInSections, getSec, findSection, getFromEntries]
  | cons sec rest ih =>
    rw [setInSections]
    by_cases hname : sec.name = s
    · rw [if_pos hname]
      simp only [getSec, findSection, hname, if_pos]
      exact getFromEntries_setEntries_self k v sec.entries
    · rw [if_neg hname]
      simp only [getSec, findSection, hname, if_neg, ite_false]
      simpa [getSec] using ih

/-- `set s k v` does not change the value read at `(s, k2)` for `k2 ≠ k`. -/
theorem getSec_setInSections_other (s k v k2 : String) (hne : k2 ≠ k) :
    ∀ secs : List Csection, getSec s k2 (setInSections s k v secs) = getSec s k2 secs := by
  intro secs
  induction secs with
  | nil =>
    simp [setInSections, getSec, findSection, getFromEntries, Ne.symm hne]
  | cons sec rest ih =>
    rw [setInSections]
    by_cases hname : sec.name = s
    · rw [if_pos hname]
      simp only [getSec, findSection, hname, if_pos]
      exact getFromEntries_setEntries_other k v k2 hne sec.entries
    · rw [if_neg hname]
      simp only [getSec, findSection, hname, if_neg, ite_false]
      exact ih

/-- Merging entries none of which has key `o` leaves `(s, o)` unchanged. -/
theorem processEntries_get_of_not_mem (env : Env) (s o : String) :
    ∀ (rest : List (String × Yaml)) (st : SectionedConfig),
      o ∉ rest.map Prod.fst →
      (processEntries env st s rest).get s o = st.get s o := by
  intro rest
  induction rest with
  | nil => intro st _; rfl
  | cons hd tl ih =>
    intro st hmem
    obtain ⟨o2, v2⟩ := hd
    simp only [List.map_cons, List.mem_cons] at hmem
    push_neg at hmem
    rw [processEntries]
    rw [ih _ hmem.2]
    exact getSec_setInSections_other s o2 _ o hmem.1 st.sections

/-- C6: for every conf entry processed into a section, the stored value for
key `certname` is the original value with `%f` replaced by the
fully-qualified hostname and `%i` by the instance identifier, the result
lower-cased; values under any other key are stored unmodified. -/
theorem C6_certname_substitution (env : Env) (s : String) (es : List (String × Yaml))
    (st : SectionedConfig) (o v : String)
    (hmem : (o, Yaml.str v) ∈ es) (hnd : (es.map Prod.fst).Nodup) :
    (processEntries env st s es).get s o =
      some (if o = "certname"
        then pylower (pyreplace (pyreplace v "%f" env.fqdn) "%i" env.instance_id)
        else v) := by
  induction es generalizing st with
  | nil => cases hmem
  | cons hd tl ih =>
    obtain ⟨o2, v2⟩ := hd
    simp only [List.map_cons, List.nodup_cons] at hnd
    rcases List.mem_cons.mp hmem with heq | hmem2
    · injection heq with ho hv
      subst ho
      subst hv
      rw [processEntries]
      rw [processEntries_get_of_not_mem env s o tl _ hnd.1]
      show getSec s o (setInSections s o _ st.sections) = _
      rw [getSec_setInSections_self]
      rfl
    · rw [processEntries]
      exact ih _ hmem2 hnd.2

/-- Witness for C6: certname `%i.%f` with hostname `host.example.org` and
instance id `i-0001` stores `i-0001.host.example.org`. -/
theorem C6_witness :
    (("certname", Yaml.str "%i.%f") ∈ [("certname", Yaml.str "%i.%f")]) ∧
    ((([("certname", Yaml.str "%i.%f")] : List (String × Yaml)).map Prod.fst).Nodup) ∧
    (processEntries envW ⟨[], []⟩ "agent" [("certname", Yaml.str "%i.%f")]).get
      "agent" "certname" = some "i-0001.host.example.org" := by
  refine ⟨List.mem_singleton.mpr rfl, by decide, ?_⟩
  rw [C6_certname_substitution envW "agent" [("certname", Yaml.str "%i.%f")] ⟨[], []⟩
    "certname" "%i.%f" (List.mem_singleton.mpr rfl) (by decide)]
  decide

/-! ## Theorems: `ca_cert` handling -/

/-- The merge's store ignores a top-level `ca_cert` item entirely. -/
theorem storeAfter_filter_ca_cert (env : Env) :
    ∀ (conf : List (String × Yaml)) (st : SectionedConfig),
      storeAfter env conf st =
        storeAfter env (conf.filter fun kv => decide (kv.1 ≠ "ca_cert")) st := by
  intro conf
  induction conf with
  | nil => intro st; rfl
  | cons hd tl ih =>
    intro st
    obtain ⟨n, sv⟩ := hd
    rw [storeAfter]
    by_cases hn : n = "ca_cert"
    · subst hn
      rw [sectionStore, if_pos rfl]
      simpa using ih st
    · rw [List.filter_cons_of_pos (by simpa using hn), storeAfter]
      exact ih _

/-- A top-level `ca_cert` item triggers the certificate-artifact block
(ssl dir created with mode `0o771` and chowned, cert dir created and
chowned, the payload written to the cert path and chowned, in that order)
somewhere in the merge trace. -/
theorem certEffects_sublist_confLoop (env : Env) (p : PuppetConstants) (user : String) :
    ∀ (conf : List (String × Yaml)) (st : SectionedConfig) (pem : Yaml),
      ("ca_cert", pem) ∈ conf →
      (certEffects p user (yamlToStr pem)).Sublist (confLoop env p user conf st) := by
  intro conf
  induction conf with
  | nil => intro st pem hmem; cases hmem
  | cons hd tl ih =>
    intro st pem hmem
    obtain ⟨n, sv⟩ := hd
    rw [confLoop]
    rcases List.mem_cons.mp hmem with heq | hmem2
    · injection heq with hn hsv
      subst hn
      subst hsv
      rw [sectionEffects, if_pos rfl]
      exact List.sublist_append_left _ _
    · exact (ih _ _ hmem2).trans (List.sublist_append_right _ _)

/-- C1 (amended): the `ca_cert` diversion applies to an item named
`ca_cert` at the TOP level of the `conf` subtree (the section-name
position), not to a key inside a section's entries: such an item never
enters the text-config store (the merged store equals the one obtained with
the item removed), and its payload is written verbatim to `ssl_cert_path`
after `ssl_dir` is created with mode `0o771` and `ssl_cert_dir` is created,
both chowned to the agent's runtime user. -/
theorem C1_ca_cert_top_level (env : Env) (p : PuppetConstants) (user : String)
    (conf : List (String × Yaml)) (st : SectionedConfig) (pem : Yaml)
    (hmem : ("ca_cert", pem) ∈ conf) :
    (certEffects p user (yamlToStr pem)).Sublist (confLoop env p user conf st) ∧
    storeAfter env conf st =
      storeAfter env (conf.filter fun kv => decide (kv.1 ≠ "ca_cert")) st :=
  ⟨certEffects_sublist_confLoop env p user conf st pem hmem,
   storeAfter_filter_ca_cert env conf st⟩

/-- C1 counterexample: with `ca_cert` as a key INSIDE the `agent` section's
entries (the shape the claim describes), the run writes `ca_cert = PEM`
into the text config and never writes the certificate file. -/
theorem C1_counterexample :
    Effect.write_file "/var/lib/puppet/ssl/certs/ca.pem" "PEM" ∉ c1trace ∧
    Effect.write_file "/etc/puppet/puppet.conf" "[agent]\nca_cert = PEM" ∈ c1trace := by
  decide

/-- Witness for C1: a `conf` subtree holding `ca_cert` at top level. -/
theorem C1_witness :
    (("ca_cert", Yaml.str "PEM") ∈ [("ca_cert", Yaml.str "PEM")]) ∧
    ((certEffects (mkPuppetConstants "/etc/puppet/puppet.conf" "/var/lib/puppet/ssl"
        "/etc/csr.yaml") "puppet" (yamlToStr (Yaml.str "PEM"))).Sublist
      (confLoop envW (mkPuppetConstants "/etc/puppet/puppet.conf" "/var/lib/puppet/ssl"
        "/etc/csr.yaml") "puppet" [("ca_cert", Yaml.str "PEM")] ⟨[], []⟩) ∧
     storeAfter envW [("ca_cert", Yaml.str "PEM")] ⟨[], []⟩ =
       storeAfter envW (([("ca_cert", Yaml.str "PEM")] : List (String × Yaml)).filter
         fun kv => decide (kv.1 ≠ "ca_cert")) ⟨[], []⟩) :=
  ⟨List.mem_singleton.mpr rfl,
   C1_ca_cert_top_level envW (mkPuppetConstants "/etc/puppet/puppet.conf"
     "/var/lib/puppet/ssl" "/etc/csr.yaml") "puppet" [("ca_cert", Yaml.str "PEM")]
     ⟨[], []⟩ (Yaml.str "PEM") (List.mem_singleton.mpr rfl)⟩

/-! ## Theorems: backup rename and no-op runs -/

/-- C3: with a two-section `conf` subtree, the run renames and rewrites the
config file TWICE (once per section, because the rename/write block sits
inside the loop), and afterwards the `.old` backup holds the intermediate
once-merged text, not the pre-run contents `"[main]\nx = 1"`. -/
theorem C3_rename_in_loop :
    lookupFS envC3.fs "/etc/puppet/puppet.conf" = some "[main]\nx = 1" ∧
    c3trace.countP (fun e => e.isRename) = 2 ∧
    lookupFS (applyEffects envC3.fs c3trace) "/etc/puppet/puppet.conf.old" =
      some "[main]\nx = 1\n[agent]\nserver = srv" ∧
    ("[main]\nx = 1\n[agent]\nserver = srv" : String) ≠ "[main]\nx = 1" := by
  decide

/-- C9: absence of the top-level `puppet` key makes the whole run a no-op
apart from one debug message: no installation, path resolution, file write,
service activation, agent run or service start occurs. -/
theorem C9_no_puppet_noop (name : String) (cfg : List (String × Yaml)) (env : Env)
    (h : lookupY cfg "puppet" = none) :
    handle name cfg env = .ok [.debug (skipMsg name)] := by
  simp [handle, h]

/-- Witness for C9 at the empty global configuration. -/
theorem C9_witness :
    lookupY [] "puppet" = none ∧
    handle "puppet" [] envW = .ok [.debug (skipMsg "puppet")] :=
  ⟨rfl, C9_no_puppet_noop "puppet" [] envW rfl⟩

/-! ## Theorems: shapes of the stage traces -/

/-- A successful path resolution emits exactly the three binary queries. -/
theorem resolve_paths_ok_effects (env : Env) (pcfg : List (String × Yaml)) (bin : String)
    (effs : List Effect) (p : PuppetConstants)
    (h : resolve_paths env pcfg bin = .ok (effs, p)) :
    effs = [.query_binary bin "config", .query_binary bin "ssldir",
            .query_binary bin "csr_attributes"] := by
  unfold resolve_paths at h
  cases h1 : get_config_value env "config" with
  | none => rw [h1] at h; exact absurd h (by simp)
  | some d1 =>
    rw [h1] at h
    cases h2 : get_config_value env "ssldir" with
    | none => rw [h2] at h; exact absurd h (by simp)
    | some d2 =>
      rw [h2] at h
      cases h3 : get_config_value env "csr_attributes" with
      | none => rw [h3] at h; exact absurd h (by simp)
      | some d3 =>
        rw [h3] at h
        simp only [Except.ok.injEq, Prod.mk.injEq] at h
        exact h.1.symm

/-- Every effect of the merge loop is a dir/chown/write/rename effect. -/
theorem confLoop_effects_kind (env : Env) (p : PuppetConstants) (user : String) :
    ∀ (conf : List (String × Yaml)) (st : SectionedConfig) (e : Effect),
      e ∈ confLoop env p user conf st → e.isConfKind = true := by
  intro conf
  induction conf with
  | nil => intro st e h; simp [confLoop] at h
  | cons hd tl ih =>
    intro st e h
    obtain ⟨n, sv⟩ := hd
    rw [confLoop] at h
    rcases List.mem_append.mp h with h1 | h2
    · rcases List.mem_append.mp h1 with ha | hb
      · rw [sectionEffects] at ha
        by_cases hn : n = "ca_cert"
        · rw [if_pos hn] at ha
          simp only [certEffects, List.mem_cons, List.not_mem_nil, or_false] at ha
          rcases ha with rfl | rfl | rfl | rfl | rfl | rfl <;> rfl
        · rw [if_neg hn] at ha
          cases ha
      · simp only [List.mem_cons, List.not_mem_nil, or_false] at hb
        rcases hb with rfl | rfl <;> rfl
    · exact ih _ e h2

/-- Every effect of a successful `conf` stage is a dir/chown/write/rename
effect. -/
theorem confStep_ok_kind (env : Env) (pcfg : List (String × Yaml)) (p : PuppetConstants)
    (user : String) (ce : List Effect) (h : confStep env pcfg p user = .ok ce) :
    ∀ e ∈ ce, e.isConfKind = true := by
  unfold confStep at h
  cases h1 : lookupY pcfg "conf" with
  | none =>
    rw [h1] at h
    simp only [Except.ok.injEq] at h
    subst h
    intro e he
    cases he
  | some conf =>
    rw [h1] at h
    cases h2 : lookupFS env.fs p.conf_path with
    | none => rw [h2] at h; exact absurd h (by simp)
    | some contents =>
      rw [h2] at h
      simp only [Except.ok.injEq] at h
      subst h
      exact fun e he => confLoop_effects_kind _ _ _ _ _ e he

/-- Dir/chown/write/rename effects are neither installer calls nor agent
runs. -/
theorem confKind_excl (e : Effect) (h : e.isConfKind = true) :
    e.isInstallEffect = false ∧ e.isAgentRun = false := by
  cases e <;> simp_all [Effect.isConfKind, Effect.isInstallEffect, Effect.isAgentRun]

/-- The `csr_attributes` stage emits no installer call and no agent run. -/
theorem csrStep_excl (pcfg : List (String × Yaml)) (p : PuppetConstants) (e : Effect)
    (h : e ∈ csrStep pcfg p) : e.isInstallEffect = false ∧ e.isAgentRun = false := by
  unfold csrStep at h
  split at h
  · cases h
  · simp only [List.mem_singleton] at h
    subst h
    exact ⟨rfl, rfl⟩

/-- The autostart stage emits no installer call and no agent run. -/
theorem autostart_excl (env : Env) (e : Effect) (h : e ∈ autostart_puppet env) :
    e.isInstallEffect = false ∧ e.isAgentRun = false := by
  unfold autostart_puppet at h
  cases hb1 : env.exists_default_puppet with
  | true =>
    simp [hb1] at h
    subst h
    exact ⟨rfl, by decide⟩
  | false =>
    cases hb2 : env.exists_systemctl with
    | true =>
      simp [hb1, hb2] at h
      subst h
      exact ⟨rfl, by decide⟩
    | false =>
      cases hb3 : env.exists_chkconfig with
      | true =>
        simp [hb1, hb2, hb3] at h
        subst h
        exact ⟨rfl, by decide⟩
      | false =>
        simp [hb1, hb2, hb3] at h
        subst h
        exact ⟨rfl, rfl⟩

/-- The agent-run stage emits no installer call. -/
theorem agentRunStep_not_install (pcfg : List (String × Yaml)) (run : Bool) (bin : String)
    (e : Effect) (h : e ∈ agentRunStep pcfg run bin) : e.isInstallEffect = false := by
  unfold agentRunStep at h
  split at h
  · rcases List.mem_cons.mp h with rfl | h2
    · rfl
    · split at h2 <;> simp only [List.mem_cons, List.not_mem_nil, or_false] at h2
      · subst h2; rfl
      · subst h2; rfl
      · rcases h2 with rfl | rfl <;> rfl
      · subst h2; rfl
  · cases h

/-- The final element of a trace ending in a singleton append. -/
theorem getLast?_append_singleton (l : List α) (a : α) : (l ++ [a]).getLast? = some a := by
  simp

/-- Structure of a successful post-install run: three binary queries, then
the merge effects (all dir/chown/write/rename), the `csr_attributes` write,
the autostart effects, the agent-run effects, and the final service start. -/
theorem postInstall_ok (env : Env) (pcfg : List (String × Yaml)) (bin user : String)
    (run : Bool) (r : List Effect) (h : postInstall env pcfg bin user run = .ok r) :
    ∃ p ce, confStep env pcfg p user = .ok ce ∧ (∀ e ∈ ce, e.isConfKind = true) ∧
      r = [.query_binary bin "config", .query_binary bin "ssldir",
           .query_binary bin "csr_attributes"] ++ ce ++ csrStep pcfg p ++
          autostart_puppet env ++ agentRunStep pcfg run bin ++
          [.subp ["service", "puppet", "start"]] := by
  unfold postInstall at h
  split at h
  next e heq => exact absurd h (by simp)
  next pathEffs p heq =>
    have heffs := resolve_paths_ok_effects env pcfg bin pathEffs p heq
    subst heffs
    split at h
    next e2 heq2 => exact absurd h (by simp)
    next ce heq2 =>
      simp only [Except.ok.injEq] at h
      exact ⟨p, ce, heq2, confStep_ok_kind env pcfg p user ce heq2, h.symm⟩

/-- The install stage on an unrecognized `install_type`: debug line, a
warning, and the `run` flag forced off. -/
theorem installStep_unknown (version collection : Option String) (it : String)
    (cleanup run : Bool) (aio pkg : String) (h1 : it ≠ "packages") (h2 : it ≠ "aio") :
    installStep true version collection it cleanup run aio pkg =
      ([.debug (attemptMsg version it), .warn (unknownInstallTypeMsg it)], false) := by
  unfold installStep
  rw [if_neg (by simp), if_pos (by simp), if_neg h1, if_neg h2]

/-- The install stage on `install = false` with a (truthy) version: only the
warning, `run` unchanged. -/
theorem installStep_skip (version collection : Option String) (it : String)
    (cleanup run : Bool) (aio pkg : String) (hv : versionTruthy version = true) :
    installStep false version collection it cleanup run aio pkg =
      ([.warn installSkipMsg], run) := by
  unfold installStep
  rw [if_pos (by simp [hv])]

/-- The install stage on `install = true` with the (default) `packages`
type: the distro package installation. -/
theorem installStep_packages (version collection : Option String)
    (cleanup run : Bool) (aio pkg : String) :
    installStep true version collection "packages" cleanup run aio pkg =
      ([.debug (attemptMsg version "packages"), .install_packages pkg version], run) := by
  unfold installStep
  rw [if_neg (by simp), if_pos (by simp), if_pos rfl]

/-- No effect of a successful post-install run is an installer call. -/
theorem postInstall_effects_not_install (env : Env) (pcfg : List (String × Yaml))
    (bin user : String) (run : Bool) (r : List Effect)
    (h : postInstall env pcfg bin user run = .ok r) :
    ∀ e ∈ r, e.isInstallEffect = false := by
  obtain ⟨p, ce, hcs, hkind, hr⟩ := postInstall_ok env pcfg bin user run r h
  subst hr
  intro e he
  rcases List.mem_append.mp he with h1 | h2
  · rcases List.mem_append.mp h1 with h3 | h4
    · rcases List.mem_append.mp h3 with h5 | h6
      · rcases List.mem_append.mp h5 with h7 | h8
        · rcases List.mem_append.mp h7 with h9 | h10
          · simp only [List.mem_cons, List.not_mem_nil, or_false] at h9
            rcases h9 with rfl | rfl | rfl <;> rfl
          · exact (confKind_excl e (hkind e h10)).1
        · exact (csrStep_excl pcfg p e h8).1
      · exact (autostart_excl env e h6).1
    · exact agentRunStep_not_install pcfg run bin e h4
  · simp only [List.mem_singleton] at h2
    subst h2
    rfl

/-- With the run flag off, no effect of a successful post-install run is an
agent run. -/
theorem postInstall_effects_not_agentrun (env : Env) (pcfg : List (String × Yaml))
    (bin user : String) (r : List Effect)
    (h : postInstall env pcfg bin user false = .ok r) :
    ∀ e ∈ r, e.isAgentRun = false := by
  obtain ⟨p, ce, hcs, hkind, hr⟩ := postInstall_ok env pcfg bin user false r h
  subst hr
  intro e he
  rcases List.mem_append.mp he with h1 | h2
  · rcases List.mem_append.mp h1 with h3 | h4
    · rcases List.mem_append.mp h3 with h5 | h6
      · rcases List.mem_append.mp h5 with h7 | h8
        · rcases List.mem_append.mp h7 with h9 | h10
          · simp only [List.mem_cons, List.not_mem_nil, or_false] at h9
            rcases h9 with rfl | rfl | rfl <;> rfl
          · exact (confKind_excl e (hkind e h10)).2
        · exact (csrStep_excl pcfg p e h8).2
      · exact (autostart_excl env e h6).2
    · rw [show agentRunStep pcfg false bin = [] from rfl] at h4
      cases h4
  · simp only [List.mem_singleton] at h2
    subst h2
    rfl

/-- A successful post-install run ends with the service start. -/
theorem postInstall_getLast (env : Env) (pcfg : List (String × Yaml))
    (bin user : String) (run : Bool) (r : List Effect)
    (h : postInstall env pcfg bin user run = .ok r) :
    r.getLast? = some (.subp ["service", "puppet", "start"]) := by
  obtain ⟨p, ce, _, _, hr⟩ := postInstall_ok env pcfg bin user run r h
  subst hr
  exact getLast?_append_singleton _ _

/-- C5: `install = true`, `exec = true` and an unrecognized `install_type`
produce a warning, no package installation and no install-script
fetch/execution; the agent-run step is skipped even though `exec` was true,
and the final service-start command still executes (it is the last effect
of the run). -/
theorem C5_unknown_install_type (name : String) (cfg : List (String × Yaml)) (env : Env)
    (pcfg : List (String × Yaml)) (it : String)
    (hp : lookupY cfg "puppet" = some (.map pcfg))
    (hi : lookupY pcfg "install" = some (.bool true))
    (hx : lookupY pcfg "exec" = some (.bool true))
    (hit : lookupY pcfg "install_type" = some (.str it))
    (h1 : it ≠ "packages") (h2 : it ≠ "aio") :
    ∀ t, handle name cfg env = .ok t →
      Effect.warn (unknownInstallTypeMsg it) ∈ t ∧
      (∀ e ∈ t, e.isInstallEffect = false) ∧
      (∀ e ∈ t, e.isAgentRun = false) ∧
      t.getLast? = some (.subp ["service", "puppet", "start"]) := by
  intro t ht
  have e1 : get_cfg_option_bool pcfg "install" true = true := by
    simp [get_cfg_option_bool, hi]
  have e2 : get_cfg_option_bool pcfg "exec" false = true := by
    simp [get_cfg_option_bool, hx]
  have e3 : (get_cfg_option_str pcfg "install_type").getD "packages" = it := by
    simp [get_cfg_option_str, hit, yamlToStr]
  simp only [handle, hp, Yaml.getMap] at ht
  simp only [handlePuppet, e1, e2, e3, if_neg h2] at ht
  rw [installStep_unknown _ _ _ _ _ _ _ h1 h2] at ht
  dsimp only at ht
  cases hpi : postInstall env pcfg "puppet" "puppet" false with
  | error e => rw [hpi] at ht; exact absurd ht (by simp [Except.map])
  | ok r =>
    rw [hpi] at ht
    simp only [Except.map, Except.ok.injEq] at ht
    subst ht
    refine ⟨?_, ?_, ?_, ?_⟩
    · simp
    · intro e he
      rcases List.mem_append.mp he with h3 | h4
      · simp only [List.mem_cons, List.not_mem_nil, or_false] at h3
        rcases h3 with rfl | rfl <;> rfl
      · exact postInstall_effects_not_install env pcfg "puppet" "puppet" false r hpi e h4
    · intro e he
      rcases List.mem_append.mp he with h3 | h4
      · simp only [List.mem_cons, List.not_mem_nil, or_false] at h3
        rcases h3 with rfl | rfl <;> rfl
      · exact postInstall_effects_not_agentrun env pcfg "puppet" "puppet" r hpi e h4
    · obtain ⟨p, ce, _, _, hr⟩ := postInstall_ok env pcfg "puppet" "puppet" false r hpi
      subst hr
      rw [← List.append_assoc]
      exact getLast?_append_singleton _ _

/-- Witness for C5 at `install_type = "bogus"` with `exec = true`. -/
theorem C5_witness :
    Effect.warn (unknownInstallTypeMsg "bogus") ∈ c5trace ∧
    (∀ e ∈ c5trace, e.isInstallEffect = false) ∧
    (∀ e ∈ c5trace, e.isAgentRun = false) ∧
    c5trace.getLast? = some (.subp ["service", "puppet", "start"]) :=
  C5_unknown_install_type "puppet" cfgC5 envW
    [("install", .bool true), ("exec", .bool true), ("install_type", .str "bogus")] "bogus"
    rfl rfl rfl rfl (by decide) (by decide) c5trace rfl

/-- C7: `install = false` with a version supplied yields exactly one extra
warning in front of the otherwise normal remainder of the run (path
resolution, configuration merge, `csr_attributes` write, autostart, agent
run and service start); no installer or fetch call is made, and the run
still ends with the service start. -/
theorem C7_install_false_version (name : String) (cfg : List (String × Yaml)) (env : Env)
    (pcfg : List (String × Yaml)) (v : String)
    (hp : lookupY cfg "puppet" = some (.map pcfg))
    (hi : lookupY pcfg "install" = some (.bool false))
    (hv : lookupY pcfg "version" = some (.str v)) (hv2 : v ≠ "") :
    handle name cfg env =
      (postInstall env pcfg
        (if (get_cfg_option_str pcfg "install_type").getD "packages" = "aio"
          then "/opt/puppetlabs/bin/puppet" else "puppet")
        (if (get_cfg_option_str pcfg "install_type").getD "packages" = "aio"
          then "root" else "puppet")
        (get_cfg_option_bool pcfg "exec" false)).map
        (fun r => Effect.warn installSkipMsg :: r) ∧
    ∀ t, handle name cfg env = .ok t →
      Effect.warn installSkipMsg ∈ t ∧
      (∀ e ∈ t, e.isInstallEffect = false) ∧
      t.getLast? = some (.subp ["service", "puppet", "start"]) := by
  have e1 : get_cfg_option_bool pcfg "install" true = false := by
    simp [get_cfg_option_bool, hi]
  have ev : versionTruthy (get_cfg_option_str pcfg "version") = true := by
    simp [get_cfg_option_str, hv, yamlToStr, versionTruthy, hv2]
  have hmain : handle name cfg env =
      (postInstall env pcfg
        (if (get_cfg_option_str pcfg "install_type").getD "packages" = "aio"
          then "/opt/puppetlabs/bin/puppet" else "puppet")
        (if (get_cfg_option_str pcfg "install_type").getD "packages" = "aio"
          then "root" else "puppet")
        (get_cfg_option_bool pcfg "exec" false)).map
        (fun r => Effect.warn installSkipMsg :: r) := by
    simp only [handle, hp, Yaml.getMap, handlePuppet, e1]
    rw [installStep_skip _ _ _ _ _ _ _ ev]
    dsimp only
    simp only [List.singleton_append]
  refine ⟨hmain, ?_⟩
  intro t ht
  rw [hmain] at ht
  cases hpi : postInstall env pcfg
      (if (get_cfg_option_str pcfg "install_type").getD "packages" = "aio"
        then "/opt/puppetlabs/bin/puppet" else "puppet")
      (if (get_cfg_option_str pcfg "install_type").getD "packages" = "aio"
        then "root" else "puppet")
      (get_cfg_option_bool pcfg "exec" false) with
  | error e => rw [hpi] at ht; exact absurd ht (by simp [Except.map])
  | ok r =>
    rw [hpi] at ht
    simp only [Except.map, Except.ok.injEq] at ht
    subst ht
    refine ⟨List.mem_cons_self _ _, ?_, ?_⟩
    · intro e he
      rcases List.mem_cons.mp he with rfl | h4
      · rfl
      · exact postInstall_effects_not_install env pcfg _ _ _ r hpi e h4
    · obtain ⟨p, ce, _, _, hr⟩ := postInstall_ok env pcfg _ _ _ r hpi
      subst hr
      rw [← List.cons_append]
      exact getLast?_append_singleton _ _

/-- Witness for C7 at `install = false`, `version = "6.0.0"`. -/
theorem C7_witness :
    Effect.warn installSkipMsg ∈ c7trace ∧
    (∀ e ∈ c7trace, e.isInstallEffect = false) ∧
    c7trace.getLast? = some (.subp ["service", "puppet", "start"]) :=
  (C7_install_false_version "puppet" cfgC7 envW
    [("install", .bool false), ("version", .str "6.0.0")] "6.0.0"
    rfl rfl rfl (by decide)).2 c7trace rfl

/-- C10: with the `install` key absent it defaults to true, so the run
attempts a distribution package installation (default `install_type` is
`packages`): absence of the flag is not equivalent to `install = false`. -/
theorem C10_install_default_true (name : String) (cfg : List (String × Yaml)) (env : Env)
    (pcfg : List (String × Yaml))
    (hp : lookupY cfg "puppet" = some (.map pcfg))
    (hi : lookupY pcfg "install" = none)
    (ht2 : lookupY pcfg "install_type" = none) :
    ∀ t, handle name cfg env = .ok t →
      Effect.install_packages ((get_cfg_option_str pcfg "package_name").getD "puppet")
        (get_cfg_option_str pcfg "version") ∈ t := by
  intro t ht
  have e1 : get_cfg_option_bool pcfg "install" true = true := by
    simp [get_cfg_option_bool, hi]
  have e3 : (get_cfg_option_str pcfg "install_type").getD "packages" = "packages" := by
    simp [get_cfg_option_str, ht2]
  have hne : ("packages" : String) ≠ "aio" := by decide
  simp only [handle, hp, Yaml.getMap, handlePuppet, e1, e3, if_neg hne] at ht
  rw [installStep_packages] at ht
  dsimp only at ht
  cases hpi : postInstall env pcfg "puppet" "puppet" (get_cfg_option_bool pcfg "exec" false) with
  | error e => rw [hpi] at ht; exact absurd ht (by simp [Except.map])
  | ok r =>
    rw [hpi] at ht
    simp only [Except.map, Except.ok.injEq] at ht
    subst ht
    simp

/-- Witness for C10 at an empty puppet document. -/
theorem C10_witness :
    Effect.install_packages "puppet" none ∈ c10trace :=
  C10_install_default_true "puppet" cfgC10 envW [] rfl rfl rfl c10trace rfl

/-- C4 (amended): the binary's configuration-query facility is invoked for
each of the three paths UNCONDITIONALLY (the default argument is evaluated
eagerly); when all three queries succeed, an explicit document value takes
precedence over the (trimmed) query result, but when the binary cannot be
queried, resolution — and the whole run — fails even if explicit values
were given. -/
theorem C4_eager_binary_query (env : Env) (pcfg : List (String × Yaml)) (bin : String) :
    (∀ d1 d2 d3, env.query "config" = some d1 → env.query "ssldir" = some d2 →
       env.query "csr_attributes" = some d3 →
       resolve_paths env pcfg bin =
         .ok ([.query_binary bin "config", .query_binary bin "ssldir",
               .query_binary bin "csr_attributes"],
              mkPuppetConstants (cfgStrOr pcfg "conf_file" (rstrip d1))
                (cfgStrOr pcfg "ssl_dir" (rstrip d2))
                (cfgStrOr pcfg "csr_attributes_path" (rstrip d3)))) ∧
    (env.query "config" = none →
      (∀ x, resolve_paths env pcfg bin ≠ .ok x) ∧
      ∀ (name : String) (cfg : List (String × Yaml)) (t : List Effect),
        lookupY cfg "puppet" = some (.map pcfg) → handle name cfg env ≠ .ok t) := by
  constructor
  · intro d1 d2 d3 h1 h2 h3
    simp [resolve_paths, get_config_value, h1, h2, h3]
  · intro hn
    constructor
    · intro x
      simp [resolve_paths, get_config_value, hn]
    · intro name cfg t hp
      simp [handle, hp, Yaml.getMap, handlePuppet, postInstall, resolve_paths,
        get_config_value, hn, Except.map]

/-- C4 counterexample: with all three paths given explicitly in the
document and a binary whose query fails, the run fails anyway — the
explicit values do not shield resolution from the binary query. -/
theorem C4_counterexample :
    handle "puppet" cfgC4 envC4 = .error (queryFailMsg "config") := by
  rfl

/-- Witness for C4: an explicit `conf_file` wins over the query result, the
other two paths fall back to the trimmed query output, and all three
queries are issued. -/
theorem C4_witness :
    resolve_paths envW [("conf_file", Yaml.str "/etc/custom.conf")] "puppet" =
      .ok ([.query_binary "puppet" "config", .query_binary "puppet" "ssldir",
            .query_binary "puppet" "csr_attributes"],
           mkPuppetConstants "/etc/custom.conf" "/default" "/default") :=
  (C4_eager_binary_query envW [("conf_file", Yaml.str "/etc/custom.conf")] "puppet").1
    "/default\n" "/default\n" "/default\n" rfl rfl rfl

/-- C8: with the run flag on, the agent command is `[puppet_bin, agent]`
followed by: the supplied list when `exec_args` is a (non-empty) sequence
of strings; the whitespace-split of the string when it is a single string;
the default `--test` when it is absent; and the default `--test` plus a
logged warning when it is of an unrecognized type (e.g. an integer). -/
theorem C8_exec_args (pcfg : List (String × Yaml)) (bin : String) :
    (∀ ys : List String, ys ≠ [] →
       lookupY pcfg "exec_args" = some (.list (ys.map Yaml.str)) →
       agentRunStep pcfg true bin =
         [.debug runAgentMsg, .subp (bin :: "agent" :: ys)]) ∧
    (∀ s2 : String, lookupY pcfg "exec_args" = some (.str s2) →
       agentRunStep pcfg true bin =
         [.debug runAgentMsg, .subp (bin :: "agent" :: pysplit s2)]) ∧
    (lookupY pcfg "exec_args" = none →
       agentRunStep pcfg true bin =
         [.debug runAgentMsg, .subp (bin :: "agent" :: ["--test"])]) ∧
    (∀ n : Int, lookupY pcfg "exec_args" = some (.int n) →
       agentRunStep pcfg true bin =
         [.debug runAgentMsg, .warn execArgsTypeMsg,
          .subp (bin :: "agent" :: ["--test"])]) := by
  refine ⟨?_, ?_, ?_, ?_⟩
  · intro ys _ h
    simp [agentRunStep, h, List.map_map, Function.comp_def, yamlToStr]
  · intro s2 h
    simp [agentRunStep, h]
  · intro h
    simp [agentRunStep, h, PUPPET_AGENT_DEFAULT_ARGS]
  · intro n h
    simp [agentRunStep, h, PUPPET_AGENT_DEFAULT_ARGS]

/-- Witness for C8: `exec_args` given as the integer 5 yields the default
`--test` and a warning. -/
theorem C8_witness :
    agentRunStep [("exec_args", Yaml.int 5)] true "puppet" =
      [.debug runAgentMsg, .warn execArgsTypeMsg,
       .subp ["puppet", "agent", "--test"]] :=
  (C8_exec_args [("exec_args", Yaml.int 5)] "puppet").2.2.2 5 rfl
